import Mathlib

/-!
Verification development for the decompyle3 core: the `iflaststmt`
reduction-disambiguation predicate (parsers/reducecheck/iflaststmt.py) and
the source-rendering engine (semantics/pysource.py).

Python text is modelled as `List Char`; machine state of the `SourceWalker`
object is the structure `WalkState`; fallible Python code (indexing errors,
attribute errors, failed asserts) is modelled with `Option`/`Except`.
-/

namespace Decompyle3

/-- Python sequence indexing `l[i]`: negative indices count from the end;
out-of-range indexing is an error (`none`). -/
def pyIdx {α : Type} (l : List α) (i : Int) : Option α :=
  if i < 0 then
    let j : Int := (l.length : Int) + i
    if j < 0 then none else l.get? j.toNat
  else l.get? i.toNat

/-- Number of leading newline characters of a text. -/
def leadingNewlines : List Char → Nat
  | c :: cs => if c = '\n' then leadingNewlines cs + 1 else 0
  | [] => 0

/-- Number of trailing newline characters of a text. -/
def trailingNewlines (s : List Char) : Nat :=
  leadingNewlines s.reverse

/-- The per-scope parameter bundle `self.params`
(pysource.py line 438: keys `_globals`, `_nonlocals`, `f`, `indent`,
`is_lambda`).  The Python dict is modelled as a structure; the output
stream `f` is the text it holds. -/
structure ScopeParams where
  f : List Char
  indent : List Char
  is_lambda : Bool
  globals : List (List Char)
  nonlocals : List (List Char)

/-- The mutable fields of `SourceWalker` (pysource.py `__init__`,
lines 246-307) that the embedded methods read or write. -/
structure WalkState where
  params : ScopeParams
  param_stack : List ScopeParams
  pending_newlines : Nat
  prec : Int
  line_number : Nat
  compile_mode : String
  is_lambda : Bool
  return_none : Bool
  name : List Char
  text : List Char
  customizeCalled : Bool
  ast_errors : List (List Char)
  ERROR : Bool
  mod_globs : List (List Char)

/-- `SourceWalker.write` applied to one already-joined string
(pysource.py lines 455-482): merge a leading newline run into
`pending_newlines` (returning early when the text is all newlines), flush
pending newlines, then strip a trailing newline run into
`pending_newlines` and append the rest to the stream. -/
def writeJoined (st : WalkState) (out : List Char) : WalkState :=
  let n := leadingNewlines out
  if out ≠ [] ∧ n = out.length then
    { st with pending_newlines := max st.pending_newlines n }
  else
    let out1 := out.drop n
    let pend := if 0 < n then max st.pending_newlines n else st.pending_newlines
    let f1 := if 0 < pend then st.params.f ++ List.replicate pend '\n' else st.params.f
    let t := trailingNewlines out1
    let out2 := out1.take (out1.length - t)
    { st with params := { st.params with f := f1 ++ out2 }, pending_newlines := t }

/-- `SourceWalker.write(*data)` (pysource.py lines 452-455): return
unchanged when called with no argument or a single empty string, else act
on the concatenation of the arguments. -/
def write (st : WalkState) (parts : List (List Char)) : WalkState :=
  if parts = [] ∨ (parts.length = 1 ∧ parts.head? = some []) then st
  else writeJoined st parts.flatten

/-- `SourceWalker.println(*data)` (pysource.py lines 484-487). -/
def println (st : WalkState) (parts : List (List Char)) : WalkState :=
  let st1 :=
    if parts ≠ [] ∧ ¬(parts.length = 1 ∧ parts.head? = some []) then write st parts
    else st
  { st1 with pending_newlines := max st1.pending_newlines 1 }

/-- The text held by the stream once pending newlines are flushed into it,
as done by `traverse` (pysource.py lines 446-447). -/
def renderedText (st : WalkState) : List Char :=
  st.params.f ++ List.replicate st.pending_newlines '\n'

/-- A fresh `SourceWalker` state as built by `__init__`
(pysource.py lines 246-307): `params = {"f": out, "indent": ""}`,
empty param stack, `prec = 100`, no pending newlines, no errors. -/
def initWalkState (out : List Char) : WalkState :=
  { params := { f := out, indent := [], is_lambda := false, globals := [], nonlocals := [] }
    param_stack := []
    pending_newlines := 0
    prec := 100
    line_number := 1
    compile_mode := "exec"
    is_lambda := false
    return_none := false
    name := []
    text := []
    customizeCalled := false
    ast_errors := []
    ERROR := false
    mod_globs := [] }

/-- The write sequence of the newline-coalescing test: two newlines, the
letter a, then two separate single-newline writes, from a fresh state. -/
def coalesceRun : WalkState :=
  write (write (write (write (initWalkState []) ["\n\n".toList]) ["a".toList])
      ["\n".toList]) ["\n".toList]

/-- C4 counterexample: the claimed output of the write sequence
write "\n\n"; write "a"; write "\n"; write "\n" followed by a flush is
NOT the string of two newlines, a, two newlines: the two separate
single-newline writes coalesce (each takes a max with the pending count,
pysource.py line 461) instead of accumulating. -/
theorem c4_counterexample : renderedText coalesceRun ≠ "\n\na\n\n".toList := by
  decide

/-- C4 (amended): the write sequence write "\n\n"; write "a"; write "\n";
write "\n" from a fresh buffer, followed by flushing pending newlines,
produces exactly "\n\na\n": consecutive newline-only writes coalesce by
taking the maximum requested run, so the run after a has length 1, the
maximum (not the sum) of the two requests. -/
theorem c4_theorem : renderedText coalesceRun = "\n\na\n".toList := by
  decide

/-- Fields of a scanner `Token` as used by the embedded code: `kind` (the
opcode or pseudo-opcode name), `attr` (integer operand, e.g. a jump
target), `attrIsCode` (whether the Python `attr` holds a code object),
`pattr` (printable operand), `pattrNeg` (whether `repr(pattr)` starts with
a minus sign), and the bytecode `offset` (`off2int` of the token). -/
structure TokData where
  kind : String
  attr : Int := 0
  attrIsCode : Bool := false
  pattr : String := ""
  pattrNeg : Bool := false
  offset : Int := 0
deriving DecidableEq

/-- A parse-tree node: either a terminal `Token` or a `SyntaxTree`
nonterminal with a kind and an ordered child list. -/
inductive Node where
  | tok (d : TokData) : Node
  | nt (kind : String) (children : List Node) : Node

/-- The `kind` of a tree node (both `Token` and `SyntaxTree` have one;
Python `node == "str"` / `node in (strs)` compare it). -/
def Node.kind : Node → String
  | .tok d => d.kind
  | .nt k _ => k

/-- Python child indexing `node[i]` (negative indices allowed); indexing a
`Token` or going out of range is an error. -/
def Node.childAt : Node → Int → Option Node
  | .tok _, _ => none
  | .nt _ cs, i => pyIdx cs i

/-- Python `len(node)`: the number of children of a `SyntaxTree`;
a `Token` has no length (error). -/
def Node.lenN : Node → Option Nat
  | .tok _ => none
  | .nt _ cs => some cs.length

/-- Python `node.attr` as an integer operand: only a `Token` carries it. -/
def Node.attrN : Node → Option Int
  | .tok d => some d.attr
  | .nt _ _ => none

/-- Python `s.startswith(pre)` on strings (structural, unlike
`String.startsWith`, so that concrete runs evaluate). -/
def strStartsWith (s pre : String) : Bool :=
  pre.toList.isPrefixOf s.toList

/-- Whether a node is a `Token` whose kind starts with LOAD and whose
`attr` is a code object (`isinstance(node[i], Token) and
node[i].kind.startswith("LOAD") and iscode(node[i].attr)`). -/
def Node.isLoadCode : Node → Bool
  | .tok d => strStartsWith d.kind "LOAD" && d.attrIsCode
  | .nt _ _ => false

/-- Modelled from the spec: `first_child` of a tree node (defined in
parsers/treenode.py, which is not among the given sources) combined with
`off2int`; per spec section 4.1 step 2 it locates the offset of the first
instruction of the subtree, i.e. its leftmost terminal. -/
def Node.firstTokenN : Node → Option TokData
  | .tok d => some d
  | .nt _ (c :: _) => c.firstTokenN
  | .nt _ [] => none

/-- The state pushed by `traverse` before walking a nested scope
(pysource.py lines 433-444): the current params go on the stack, pending
newlines reset to zero, and a fresh bundle with an empty stream, the
chosen indent and the lambda flag is installed. -/
def innerTraverseState (st : WalkState) (indent : List Char) (il : Bool) : WalkState :=
  { st with
    param_stack := st.params :: st.param_stack
    pending_newlines := 0
    params := { f := [], indent := indent, is_lambda := il, globals := [], nonlocals := [] } }

/-- `SourceWalker.traverse` (pysource.py lines 432-450), with the tree
walk `self.preorder(node)` abstracted as a state transformer `walk`:
push the current params, walk the node in a fresh bundle, flush pending
newlines into the fresh stream, return its contents, then pop the params
and restore the saved pending-newline count.  Popping an empty stack is
an error. -/
def traverse (walk : WalkState → WalkState) (st : WalkState)
    (indentArg : Option (List Char)) (il : Bool) : Option (List Char × WalkState) :=
  let indent := indentArg.getD st.params.indent
  let p := st.pending_newlines
  let st3 := walk (innerTraverseState st indent il)
  let result := st3.params.f ++ List.replicate st3.pending_newlines '\n'
  match st3.param_stack with
  | [] => none
  | top :: rest =>
      some (result, { st3 with params := top, param_stack := rest, pending_newlines := p })

/-- C9: every nested render through `traverse` runs the walk on a fresh
empty stream, returns that stream (with pending newlines flushed) as the
result string, and afterwards the caller's params bundle, param stack and
pending-newline count are exactly what they were before the call —
provided the walk leaves the param stack balanced, as every embedded
walker does. -/
theorem c9_theorem (walk : WalkState → WalkState) (st : WalkState)
    (indentArg : Option (List Char)) (il : Bool)
    (hwalk : ∀ s, (walk s).param_stack = s.param_stack) :
    (innerTraverseState st (indentArg.getD st.params.indent) il).params.f = [] ∧
    traverse walk st indentArg il =
      some (renderedText (walk (innerTraverseState st (indentArg.getD st.params.indent) il)),
        { walk (innerTraverseState st (indentArg.getD st.params.indent) il) with
            params := st.params
            param_stack := st.param_stack
            pending_newlines := st.pending_newlines }) := by
  refine ⟨rfl, ?_⟩
  unfold traverse renderedText
  simp only [hwalk, innerTraverseState]

/-- C9 witness: the restoration property at a concrete walk (the identity
walk) and a concrete fresh state. -/
theorem c9_witness :
    (innerTraverseState (initWalkState []) ((none : Option (List Char)).getD (initWalkState []).params.indent) false).params.f = [] ∧
    traverse (fun s => s) (initWalkState []) none false =
      some (renderedText (innerTraverseState (initWalkState []) ((none : Option (List Char)).getD (initWalkState []).params.indent) false),
        { innerTraverseState (initWalkState []) ((none : Option (List Char)).getD (initWalkState []).params.indent) false with
            params := (initWalkState []).params
            param_stack := (initWalkState []).param_stack
            pending_newlines := (initWalkState []).pending_newlines }) :=
  c9_theorem (fun s => s) (initWalkState []) none false (fun _ => rfl)

/-- `SourceWalker.gen_source` (pysource.py lines 2483-2507), with the
customize-table machinery (`self.customize(customize)`) and the tree walk
(`self.traverse(tree, is_lambda=is_lambda)`) passed as function
parameters: save and restore `return_none` and `name`; for an empty tree
print pass at the current indent, else customize, traverse and print the
resulting text. -/
def gen_source (customizeFn : WalkState → WalkState)
    (traverseFn : WalkState → List Char × WalkState)
    (st : WalkState) (tree : Node) (name : List Char) (returnNone : Bool) : WalkState :=
  let rn := st.return_none
  let old_name := st.name
  let st1 := { st with return_none := returnNone, name := name }
  let st2 :=
    match tree.lenN with
    | some 0 => println st1 [st1.params.indent, "pass".toList]
    | _ =>
      let stc := customizeFn st1
      let (text, stt) := traverseFn stc
      println { stt with text := text } [text]
  { st2 with name := old_name, return_none := rn }

/-- C10: on a parse tree with zero children, `gen_source` prints the
single statement pass at the current indentation level (with a pending
newline), and the template/customize machinery is never invoked: the
result does not depend on the customize or traverse functions at all, and
equals the state obtained by `println(indent, "pass")` alone. -/
theorem c10_theorem (c₁ c₂ : WalkState → WalkState)
    (t₁ t₂ : WalkState → List Char × WalkState)
    (st : WalkState) (tree : Node) (name : List Char) (rn : Bool)
    (h : tree.lenN = some 0) :
    gen_source c₁ t₁ st tree name rn = gen_source c₂ t₂ st tree name rn ∧
    gen_source c₁ t₁ st tree name rn =
      { println { st with return_none := rn, name := name }
          [st.params.indent, "pass".toList] with
          name := st.name, return_none := st.return_none } := by
  unfold gen_source
  rw [h]
  exact ⟨rfl, rfl⟩

/-- C10 witness: the pass behaviour at a concrete childless tree and a
fresh state, with two visibly different customize/traverse functions. -/
theorem c10_witness :
    gen_source (fun s => { s with customizeCalled := true })
        (fun s => ("XX".toList, s)) (initWalkState []) (Node.nt "stmts" [])
        "m".toList false =
      gen_source (fun s => s) (fun s => ([], s)) (initWalkState [])
        (Node.nt "stmts" []) "m".toList false ∧
    gen_source (fun s => { s with customizeCalled := true })
        (fun s => ("XX".toList, s)) (initWalkState []) (Node.nt "stmts" [])
        "m".toList false =
      { println { initWalkState [] with return_none := false, name := "m".toList }
          [(initWalkState []).params.indent, "pass".toList] with
          name := (initWalkState []).name, return_none := (initWalkState []).return_none } :=
  c10_theorem _ _ _ _ (initWalkState []) (Node.nt "stmts" []) "m".toList false rfl

theorem leadingNewlines_of_not_mem (out : List Char) (h : '\n' ∉ out) :
    leadingNewlines out = 0 := by
  cases out with
  | nil => rfl
  | cons c cs =>
    have hc : ¬ c = '\n' := fun hc => h (hc ▸ List.mem_cons_self c cs)
    simp [leadingNewlines, hc]

theorem trailingNewlines_of_not_mem (out : List Char) (h : '\n' ∉ out) :
    trailingNewlines out = 0 :=
  leadingNewlines_of_not_mem _ (fun hm => h (List.mem_reverse.mp hm))

/-- Writing a newline-free text with no pending newlines just appends it
to the stream. -/
theorem writeJoined_plain (st : WalkState) (out : List Char)
    (h0 : st.pending_newlines = 0) (h : '\n' ∉ out) :
    writeJoined st out =
      { st with params := { st.params with f := st.params.f ++ out },
                pending_newlines := 0 } := by
  unfold writeJoined
  rw [leadingNewlines_of_not_mem out h]
  have h1 : ¬(out ≠ [] ∧ 0 = out.length) := by
    rintro ⟨hne, hlen⟩
    exact hne (List.length_eq_zero.mp hlen.symm)
  rw [if_neg h1]
  simp [h0, trailingNewlines_of_not_mem out h]

/-- Writing a newline-free body followed by one newline, with no pending
newlines, appends the body and records one pending newline. -/
theorem writeJoined_line (st : WalkState) (body : List Char)
    (h0 : st.pending_newlines = 0) (hb : '\n' ∉ body) (hne : body ≠ []) :
    writeJoined st (body ++ ['\n']) =
      { st with params := { st.params with f := st.params.f ++ body },
                pending_newlines := 1 } := by
  unfold writeJoined
  have hl : leadingNewlines (body ++ ['\n']) = 0 := by
    cases body with
    | nil => exact absurd rfl hne
    | cons c cs =>
      have hc : ¬ c = '\n' := fun hc => hb (hc ▸ List.mem_cons_self c cs)
      simp [leadingNewlines, hc]
  rw [hl]
  have h1 : ¬(body ++ ['\n'] ≠ [] ∧ 0 = (body ++ ['\n']).length) := by
    rintro ⟨-, hlen⟩
    simp at hlen
  rw [if_neg h1]
  have ht : trailingNewlines (body ++ ['\n']) = 1 := by
    unfold trailingNewlines
    rw [List.reverse_append]
    simp [leadingNewlines, leadingNewlines_of_not_mem _
      (fun hm => hb (List.mem_reverse.mp hm))]
  simp [h0, ht, List.take_left]

/-- Writing a newline-free nonempty text with pending newlines flushes the
newlines first and then appends the text. -/
theorem writeJoined_flush (st : WalkState) (out : List Char)
    (hp : 0 < st.pending_newlines) (h : '\n' ∉ out) (hne : out ≠ []) :
    writeJoined st out =
      { st with
        params := { st.params with
                    f := st.params.f ++ List.replicate st.pending_newlines '\n' ++ out },
        pending_newlines := 0 } := by
  unfold writeJoined
  rw [leadingNewlines_of_not_mem out h]
  have h1 : ¬(out ≠ [] ∧ 0 = out.length) := by
    rintro ⟨hne2, hlen⟩
    exact hne2 (List.length_eq_zero.mp hlen.symm)
  rw [if_neg h1]
  simp [hp, trailingNewlines_of_not_mem out h, List.append_assoc]

/-- `write` with a single nonempty argument is `writeJoined` on it. -/
theorem write_single (st : WalkState) (x : List Char) (hx : x ≠ []) :
    write st [x] = writeJoined st x := by
  unfold write
  rw [if_neg]
  · simp
  · simp [hx]

/-- Folding writes of nonempty, newline-free texts over a state with no
pending newlines appends their concatenation. -/
theorem write_fold_plain (es : List (List Char)) : ∀ (st : WalkState),
    st.pending_newlines = 0 → (∀ e ∈ es, e ≠ [] ∧ '\n' ∉ e) →
    es.foldl (fun s e => write s [e]) st =
      { st with params := { st.params with f := st.params.f ++ es.flatten },
                pending_newlines := 0 } := by
  induction es with
  | nil =>
    intro st h0 _
    simp [← h0]
  | cons e es ih =>
    intro st h0 hall
    have he := hall e (List.mem_cons_self e es)
    have hes : ∀ x ∈ es, x ≠ [] ∧ '\n' ∉ x := fun x hx =>
      hall x (List.mem_cons_of_mem e hx)
    simp only [List.foldl_cons]
    rw [write_single st e he.1, writeJoined_plain st e h0 he.2,
      ih _ rfl hes]
    simp [List.append_assoc]

/-- Lexicographic boolean order on texts (Python string comparison). -/
def textLe : List Char → List Char → Bool
  | [], _ => true
  | _ :: _, [] => false
  | a :: as, b :: bs => if a = b then textLe as bs else decide (a < b)

/-- Insertion into a sorted list of texts. -/
def insertSorted (x : List Char) : List (List Char) → List (List Char)
  | [] => [x]
  | y :: ys => if textLe x y then x :: y :: ys else y :: insertSorted x ys

/-- Python `sorted` on a collection of strings, as insertion sort. -/
def sortTexts (l : List (List Char)) : List (List Char) :=
  l.foldr insertSorted []

/-- The tail of `code_deparse` after `gen_source` returns
(pysource.py lines 2700-2712): write one warning comment per unused
module global, then, if shape-validation diagnostics were accumulated in
`ast_errors`, write the NOTE and -T comment lines and every diagnostic
string and raise `SourceWalkerError` (modelled as `Except.error` carrying
the message and the final state); raise likewise when `ERROR` is set;
otherwise return the deparsed state. -/
def code_deparse_finish (st : WalkState) : Except (List Char × WalkState) WalkState :=
  let st1 := (sortTexts st.mod_globs).foldl
    (fun s g => write s [("# global ".toList ++ g ++ " ## Warning: Unused global\n".toList)]) st
  if st1.ast_errors ≠ [] then
    let st2 := write st1 ["# NOTE: have internal decompilation grammar errors.\n".toList]
    let st3 := write st2 ["# Use -T option to show full context.".toList]
    let st4 := st3.ast_errors.foldl (fun s e => write s [e]) st3
    Except.error ("Deparsing hit an internal grammar-rule bug".toList, st4)
  else if st1.ERROR then
    Except.error ("Deparsing stopped due to parse error".toList, st1)
  else Except.ok st1

/-- C8: when tree building and rendering complete but the accumulated
shape-validation diagnostics list is non-empty, the deparser never
returns normally: it appends the diagnostics as warning-comment lines to
the output stream (after the NOTE and -T header comments) and raises the
distinguished `SourceWalkerError`, whose carried state shows the appended
comments.  (Stated for newline-free diagnostic strings, no unused module
globals, and a flushed stream.) -/
theorem c8_theorem (st : WalkState) (es : List (List Char))
    (hg : st.mod_globs = []) (he : st.ast_errors = es) (hne : es ≠ [])
    (h0 : st.pending_newlines = 0) (hok : ∀ e ∈ es, e ≠ [] ∧ '\n' ∉ e) :
    (∀ ok, code_deparse_finish st ≠ Except.ok ok) ∧
    code_deparse_finish st =
      Except.error ("Deparsing hit an internal grammar-rule bug".toList,
        { st with
          params := { st.params with
                      f := st.params.f ++
                        ("# NOTE: have internal decompilation grammar errors.\n" ++
                         "# Use -T option to show full context.").toList ++ es.flatten },
          pending_newlines := 0 }) := by
  have hsplit :
      ("# NOTE: have internal decompilation grammar errors.\n".toList : List Char) =
        "# NOTE: have internal decompilation grammar errors.".toList ++ ['\n'] := by
    decide
  unfold code_deparse_finish
  rw [hg]
  have hfold0 : sortTexts [] = [] := rfl
  rw [hfold0]
  simp only [List.foldl_nil]
  rw [if_pos (by rw [he]; exact hne)]
  rw [write_single st _ (by rw [hsplit]; simp), hsplit,
    writeJoined_line st _ h0 (by decide) (by decide)]
  rw [write_single _ _ (by decide),
    writeJoined_flush _ _ (by simp) (by decide) (by decide)]
  dsimp only
  rw [he, write_fold_plain es _ rfl hok]
  refine ⟨fun ok h => by simp at h, ?_⟩
  dsimp only
  rw [hg]
  have hstr2 : (("# NOTE: have internal decompilation grammar errors.\n" ++
      "# Use -T option to show full context.").toList : List Char) =
      "# NOTE: have internal decompilation grammar errors.".toList ++
        '\n' :: "# Use -T option to show full context.".toList := by decide
  simp only [hstr2, List.append_assoc, List.replicate_one, List.singleton_append]

/-- C8 witness: the raising behaviour at a concrete state holding one
diagnostic string. -/
theorem c8_witness :
    (∀ ok, code_deparse_finish
      { initWalkState [] with ast_errors := ["E1".toList] } ≠ Except.ok ok) ∧
    code_deparse_finish { initWalkState [] with ast_errors := ["E1".toList] } =
      Except.error ("Deparsing hit an internal grammar-rule bug".toList,
        { { initWalkState [] with ast_errors := ["E1".toList] } with
          params := { { initWalkState [] with ast_errors := ["E1".toList] }.params with
                      f := { initWalkState [] with ast_errors := ["E1".toList] }.params.f ++
                        ("# NOTE: have internal decompilation grammar errors.\n" ++
                         "# Use -T option to show full context.").toList ++
                        ([("E1".toList : List Char)]).flatten },
          pending_newlines := 0 }) :=
  c8_theorem { initWalkState [] with ast_errors := ["E1".toList] }
    ["E1".toList] rfl rfl (by decide) rfl (by decide)

/-- Python `node.pattr` (printable operand): only a `Token` carries it. -/
def Node.pattrN : Node → Option (List Char)
  | .tok d => some d.pattr.toList
  | .nt _ _ => none

/-- `SourceWalker.n_alias` (pysource.py lines 838-846; the `version <=
(2, 1)` early branch, lines 826-836, is dead code since decompyle3 only
handles Python 3.7+): locate the STORE token at `node[-1][-1]` (the
startswith assertion failing is an error), take the imported name from
`node[0].pattr` and the bound name from that token's `pattr`, and write
the imported name alone when the names are equal (and nonempty) or the
bound name followed by a dot is a prefix of the imported name; otherwise
write the imported name, the word as, and the bound name. -/
def n_alias (st : WalkState) (node : Node) : Option WalkState := do
  let nl ← node.childAt (-1)
  let store_node ← nl.childAt (-1)
  if strStartsWith store_node.kind "STORE_" then
    let n0 ← node.childAt 0
    let iname ← n0.pattrN
    let sname ← store_node.pattrN
    if (iname ≠ [] ∧ iname = sname) ∨ (sname ++ ['.']).isPrefixOf iname then
      pure (write st [iname])
    else
      pure (write st [iname, " as ".toList, sname])
  else none

/-- An alias node `import iname as sname` with the given printable names. -/
def aliasNode (iname sname : String) : Node :=
  Node.nt "alias"
    [Node.tok { kind := "IMPORT_NAME", pattr := iname },
     Node.nt "store" [Node.tok { kind := "STORE_NAME", pattr := sname }]]

/-- C6 counterexample: for imported name os.path bound to path — the
bound name is the last dotted component — the claim says the as suffix is
omitted, but the code only omits it when the bound name is the FIRST
dotted component (`iname.startswith(sname + ".")`, pysource.py line 842):
it writes os.path as path. -/
theorem c6_counterexample :
    (n_alias (initWalkState []) (aliasNode "os.path" "path")).map
        (fun s => s.params.f) = some "os.path as path".toList ∧
    ("os.path as path".toList : List Char) ≠ "os.path".toList := by
  constructor
  · decide
  · decide

/-- C6 (amended): the renderer omits the as suffix exactly when the
imported name equals the bound name (and is nonempty) or the bound name
followed by a dot is a prefix of the imported name (the bound name is the
first dotted component, as in `import os.path` binding os); in all other
cases — including when the bound name is only the last dotted component —
it writes the imported name, the word as, and the bound name. -/
theorem c6_theorem (st : WalkState) (node nl : Node) (d0 dS : TokData)
    (h1 : node.childAt (-1) = some nl)
    (h2 : nl.childAt (-1) = some (Node.tok dS))
    (h3 : strStartsWith dS.kind "STORE_" = true)
    (h4 : node.childAt 0 = some (Node.tok d0))
    (h0 : st.pending_newlines = 0)
    (hni : '\n' ∉ d0.pattr.toList) (hns : '\n' ∉ dS.pattr.toList) :
    n_alias st node = some
      { st with
        params := { st.params with
                    f := st.params.f ++
                      (if (d0.pattr.toList ≠ [] ∧ d0.pattr.toList = dS.pattr.toList) ∨
                          (dS.pattr.toList ++ ['.']).isPrefixOf d0.pattr.toList
                       then d0.pattr.toList
                       else d0.pattr.toList ++ " as ".toList ++ dS.pattr.toList) },
        pending_newlines := 0 } := by
  unfold n_alias
  simp only [h1, h2, h4, Option.bind_eq_bind, Option.some_bind, Node.kind, h3, if_true,
    Node.pattrN]
  split
  · next hcond =>
    have hine : d0.pattr.toList ≠ [] := by
      rcases hcond with ⟨hne2, -⟩ | hpre
      · exact hne2
      · rcases List.isPrefixOf_iff_prefix.mp hpre with ⟨t, ht⟩
        intro hemp
        rw [hemp] at ht
        simp at ht
    show some (write st [d0.pattr.toList]) = _
    rw [write_single st _ hine, writeJoined_plain st _ h0 hni]
  · next hcond =>
    have hjoin : ([d0.pattr.toList, " as ".toList, dS.pattr.toList] :
        List (List Char)).flatten =
        d0.pattr.toList ++ " as ".toList ++ dS.pattr.toList := by
      simp [List.append_assoc]
    have hwr : write st [d0.pattr.toList, " as ".toList, dS.pattr.toList] =
        writeJoined st (d0.pattr.toList ++ " as ".toList ++ dS.pattr.toList) := by
      unfold write
      rw [if_neg (by simp), hjoin]
    show some (write st [d0.pattr.toList, " as ".toList, dS.pattr.toList]) = _
    rw [hwr, writeJoined_plain st _ h0 (by
      intro hm
      rcases List.mem_append.mp hm with hm1 | hm2
      · rcases List.mem_append.mp hm1 with hm3 | hm4
        · exact hni hm3
        · revert hm4
          decide
      · exact hns hm2)]

/-- C6 witness: the amended rule at two concrete inputs: `import os.path`
binding os omits the suffix; binding path writes it. -/
theorem c6_witness :
    n_alias (initWalkState []) (aliasNode "os.path" "os") = some
      { initWalkState [] with
        params := { (initWalkState []).params with
                    f := (initWalkState []).params.f ++
                      (if (("os.path".toList : List Char) ≠ [] ∧
                            ("os.path".toList : List Char) = "os".toList) ∨
                          (("os".toList : List Char) ++ ['.']).isPrefixOf "os.path".toList
                       then "os.path".toList
                       else "os.path".toList ++ " as ".toList ++ "os".toList) },
        pending_newlines := 0 } :=
  c6_theorem (initWalkState []) (aliasNode "os.path" "os")
    (Node.nt "store" [Node.tok { kind := "STORE_NAME", pattr := "os" }])
    { kind := "IMPORT_NAME", pattr := "os.path" }
    { kind := "STORE_NAME", pattr := "os" }
    rfl rfl rfl rfl rfl (by decide) (by decide)

/-- The single-quote character. -/
def squote : Char := '\''

/-- Python `s.find(pat) >= 0`: whether `pat` occurs in `s`. -/
def findSub (pat : List Char) : List Char → Bool
  | [] => pat.isPrefixOf []
  | c :: rest => pat.isPrefixOf (c :: rest) || findSub pat rest

/-- Quote character chosen by CPython `repr` for a string: a double quote
when the content holds a single quote but no double quote, else a single
quote. -/
def pyReprQuote (s : List Char) : Char :=
  if squote ∈ s ∧ '"' ∉ s then '"' else squote

/-- CPython `repr` escaping of one character given the chosen quote
(model restricted to printable ASCII plus backslash, tab, newline and
carriage return, which covers every docstring considered here). -/
def pyReprEsc (q c : Char) : List Char :=
  if c = '\\' then ['\\', '\\']
  else if c = q then ['\\', q]
  else if c = '\n' then ['\\', 'n']
  else if c = '\r' then ['\\', 'r']
  else if c = '\t' then ['\\', 't']
  else [c]

/-- CPython `repr(s)[1:-1]`: the escaped body of the repr of a string
(the surrounding quotes stripped, as done at pysource.py line 896). -/
def pyReprBody (s : List Char) : List Char :=
  (s.map (pyReprEsc (pyReprQuote s))).flatten

/-- CPython `str.expandtabs()` with the default tab size 8: each tab is
replaced by spaces up to the next multiple of 8, the column resetting at
newline and carriage return. -/
def expandtabsFrom : Nat → List Char → List Char
  | _, [] => []
  | col, c :: cs =>
    if c = '\t' then
      List.replicate (8 - col % 8) ' ' ++ expandtabsFrom (col + (8 - col % 8)) cs
    else if c = '\n' ∨ c = '\r' then c :: expandtabsFrom 0 cs
    else c :: expandtabsFrom (col + 1) cs

/-- CPython `s.expandtabs()`. -/
def pyExpandtabs (s : List Char) : List Char :=
  expandtabsFrom 0 s

/-- Fuel-driven core of Python `str.replace`: leftmost non-overlapping
replacement; the fuel starts at the length of the text, which the
remaining length never exceeds, so the fuel-0 case is unreachable. -/
def replaceAllAux (pat repl : List Char) : Nat → List Char → List Char
  | _, [] => []
  | 0, s => s
  | fuel + 1, c :: cs =>
    if pat ≠ [] ∧ pat.isPrefixOf (c :: cs) then
      repl ++ replaceAllAux pat repl fuel ((c :: cs).drop pat.length)
    else c :: replaceAllAux pat repl fuel cs

/-- Python `s.replace(pat, repl)`. -/
def replaceAll (pat repl s : List Char) : List Char :=
  replaceAllAux pat repl s.length s

/-- Python `s.split(sep)` for a one-character separator. -/
def splitOnChar (sep : Char) : List Char → List (List Char)
  | [] => [[]]
  | c :: cs =>
    if c = sep then [] :: splitOnChar sep cs
    else
      match splitOnChar sep cs with
      | [] => [[c]]
      | l :: ls => (c :: l) :: ls

/-- Triple-quote delimiter choice of `n_docstring` (pysource.py lines
890-893): start from triple double quotes; switch to triple single quotes
only when the content contains a triple-double-quote run but no
triple-single-quote run. -/
def docstringQuote (d : List Char) : List Char :=
  let q3d : List Char := ['"', '"', '"']
  let q3s : List Char := List.replicate 3 squote
  if findSub q3d d then (if ¬ findSub q3s d then q3s else q3d) else q3d

/-- The line-emission tail of `n_docstring` (pysource.py lines 937-953):
split the escaped content on newlines, write the opening delimiter, then
print the lines — blank interior lines request a double newline — closing
with the delimiter on the last line. -/
def docstringEmit (st : WalkState) (quote : List Char) (d : List Char) : WalkState :=
  let lines := splitOnChar '\n' d
  let st := write st [quote]
  if lines.length = 0 then println st [quote]
  else if lines.length = 1 then println st [lines.headD [], quote]
  else
    let st := println st [lines.headD []]
    let mid := (lines.drop 1).dropLast
    let st := mid.foldl
      (fun s line => if line ≠ [] then println s [line] else println s ["\n\n".toList]) st
    println st [lines.getLastD [], quote]

/-- `SourceWalker.n_docstring` (pysource.py lines 875-954) for a docstring
node whose `attr` is a string or absent (the mistagged non-string branch
at lines 881-886 is outside this model): choose the delimiter, write the
indent, take `repr(content.expandtabs())[1:-1]`, undo the repr escapes
(turning double backslashes into a tab marker first), then either render
as a raw string (content held backslashes and nothing else needing
escape) or escape a final character equal to the delimiter character and
any embedded delimiter run, and finally emit the lines. -/
def n_docstring (st : WalkState) (attr : Option (List Char)) (pattr : List Char) : WalkState :=
  let indent := st.params.indent
  let docstring :=
    match attr with
    | some d => if d ≠ [] then d else pattr
    | none => pattr
  let quote := docstringQuote docstring
  let st := write st [indent]
  let d1 := pyReprBody (pyExpandtabs docstring)
  let d2 := replaceAll ['\\', '\\'] ['\t'] d1
  let d3 := replaceAll ['\\', 'r', '\\', 'n'] ['\n'] d2
  let d4 := replaceAll ['\\', 'n'] ['\n'] d3
  let d5 := replaceAll ['\\', 'r'] ['\n'] d4
  let d6 := replaceAll ['\\', '"'] ['"'] d5
  let d7 := replaceAll ['\\', squote] [squote] d6
  if '\t' ∈ d7 ∧ '\\' ∉ d7 ∧ d7.length ≥ 2 ∧ d7.getLast? ≠ some '\t' ∧
      (d7.getLast? ≠ some '"' ∨ pyIdx d7 (-2) = some '\t') then
    let st := write st ["r".toList]
    let d8 := replaceAll ['\t'] ['\\'] d7
    docstringEmit st quote d8
  else
    let quote1 := quote.getLastD '"'
    let d8 :=
      if d7 ≠ [] ∧ d7.getLast? = some quote1 then d7.dropLast ++ ['\\', quote1]
      else d7
    let d9 := replaceAll quote ('\\' :: quote) d8
    let d10 := replaceAll ['\t'] ['\\', '\\'] d9
    docstringEmit st quote d10

/-- The docstring content of the C5 scenario: He said "hi" then a
newline. -/
def c5content : List Char := "He said \"hi\"\n".toList

/-- C5 counterexample: for content holding double quotes but no triple
quote run, the renderer does NOT choose triple single quotes: the switch
at pysource.py lines 891-893 fires only when the content contains a
literal triple-double-quote run, so the delimiter stays triple double
quotes. -/
theorem c5_counterexample :
    docstringQuote c5content = "\"\"\"".toList ∧
    docstringQuote c5content ≠ List.replicate 3 squote := by
  constructor
  · decide
  · decide

/-- C5 (amended): for the docstring content He said "hi" plus newline,
the renderer keeps the default triple-double-quote delimiter (it would
switch to triple single quotes only if the content contained a
triple-double-quote run), leaves the embedded double quotes unescaped —
a quote is escaped only when it is the final character, abutting the
closing delimiter, which the trailing newline here is not — and emits the
embedded newline as a literal newline character: from a fresh state the
stream holds exactly the delimiter, the content with its literal newline,
and the delimiter, with one pending newline. -/
theorem c5_theorem :
    (n_docstring (initWalkState []) (some c5content) []).params.f =
      "\"\"\"He said \"hi\"\n\"\"\"".toList ∧
    (n_docstring (initWalkState []) (some c5content) []).pending_newlines = 1 := by
  constructor
  · decide
  · decide

/-- A decoded bytecode instruction as used by the disambiguator:
`offset`, `optype` (jump category: jabs, jrel, or other) and `argval`
(the resolved jump target). -/
structure Inst where
  offset : Int
  optype : String
  argval : Int
deriving DecidableEq

/-- Whether an instruction is a jump (absolute or relative) to `tgt`
(iflaststmt.py line 48). -/
def isSameTargetJump (tgt : Int) (inst : Inst) : Bool :=
  (inst.optype = "jabs" || inst.optype = "jrel") && inst.argval = tgt

/-- Fuel-driven core of the scan loop of `iflaststmt` (iflaststmt.py
lines 45-52): starting at index `i`, while the instruction's offset is
before the jump target, return accept (false) on finding another jump to
the same target, else advance; reaching the target offset rejects
(true); running off the instruction array is an index error, and the
fuel (always at least the array length plus one at the call site) never
runs out. -/
def scanFromAux (insts : List Inst) (tgt : Int) : Nat → Nat → Option Bool
  | 0, _ => none
  | fuel + 1, i =>
    match insts.get? i with
    | none => none
    | some inst =>
      if inst.offset < tgt then
        if isSameTargetJump tgt inst then some false
        else scanFromAux insts tgt fuel (i + 1)
      else some true

/-- The scan loop of `iflaststmt` from instruction index `i`. -/
def scanFrom (insts : List Inst) (tgt : Int) (i : Nat) : Option Bool :=
  scanFromAux insts tgt (insts.length + 1) i

/-- Variant A of `iflaststmt` (iflaststmt.py lines 24-54), the block
guarded by the rule shape (iflaststmt, (testexpr, stmts)): find the
instruction just before the first instruction of the statement body; when
it is an unconditional absolute jump whose target differs from the offset
of the token at (the adjusted) `last`, run the scan and return its answer
(`some (some b)`); otherwise fall through (`some none`); index and lookup
failures are errors (`none`). -/
def variantA (insts : List Inst) (o2i : Int → Option Nat) (ast : Node)
    (tokens : List TokData) (last : Int) : Option (Option Bool) :=
  match ast.childAt 1 with
  | none => none
  | some a1 =>
    match a1.firstTokenN with
    | none => none
    | some fc =>
      match o2i fc.offset with
      | none => none
      | some inst_offset =>
        match pyIdx insts ((inst_offset : Int) - 1) with
        | none => none
        | some tli =>
          if tli.optype = "jabs" then
            match pyIdx tokens last with
            | none => none
            | some tl =>
              if tli.argval ≠ tl.offset then
                match scanFrom insts tli.argval inst_offset with
                | none => none
                | some b => some (some b)
              else some none
          else some none

/-- Variant B of `iflaststmt` (iflaststmt.py lines 56-100): when the test
expression is a short-circuit boolean test, reject a bare (n)and against
the statement-level rule; then, for a conditional-branch test, reject a
jump target strictly inside the token span, apply the two loop-shape
exception checks, treat a preceding conditional-branch-if-false as a
chained boolean and (returning whether the targets agree), and accept a
target that lands exactly past a trailing jump with the same target;
default accept. -/
def variantB (n : Int) (ruleR : List String) (testexpr : Node)
    (tokens : List TokData) (first last : Int) : Option Bool :=
  match testexpr.childAt 0 with
  | none => none
  | some test =>
    if test.kind ∈ (["testtrue", "testtruec", "testfalse", "testfalsec"] : List String) then
      match test.lenN with
      | none => none
      | some test_len =>
        if test_len = 1 then
          match test.childAt 0 with
          | none => none
          | some tst0 =>
            if (tst0.kind = "nand" ∨ tst0.kind = "and") ∧ ruleR = ["testexpr", "stmts"] then
              some true
            else some false
        else if test_len > 1 then
          match test.childAt 1 with
          | none => none
          | some t1 =>
            if strStartsWith t1.kind "POP_JUMP_IF_" then
              let last2 := if last = n then last - 1 else last
              match t1.attrN with
              | none => none
              | some jt =>
                match pyIdx tokens first with
                | none => none
                | some tf =>
                  match pyIdx tokens last2 with
                  | none => none
                  | some tl =>
                    if tf.offset ≤ jt ∧ jt < tl.offset then some true
                    else
                      let step45 : Option Bool :=
                        let step5 : Option Bool :=
                          if jt > tl.offset then
                            match pyIdx tokens (last2 - 1) with
                            | none => none
                            | some tlm1 =>
                              if jt = tlm1.attr then some false else some false
                          else some false
                        if first > 0 then
                          match pyIdx tokens (first - 1) with
                          | none => none
                          | some tfm1 =>
                            if tfm1.kind = "POP_JUMP_IF_FALSE" then
                              some (decide (tfm1.attr = jt))
                            else step5
                        else step5
                      if last2 + 1 < n then
                        match pyIdx tokens (last2 - 1) with
                        | none => none
                        | some tlm1 =>
                          if tlm1.kind = "JUMP_BACK" then
                            if jt > tf.offset then some true else step45
                          else
                            match pyIdx tokens (last2 + 1) with
                            | none => none
                            | some tlp1 =>
                              if tlp1.kind = "COME_FROM_LOOP" ∧ tl.kind ≠ "BREAK_LOOP" then
                                some true
                              else step45
                      else step45
            else some false
        else some false
    else some false

/-- The `iflaststmt` reduction-check predicate
(parsers/reducecheck/iflaststmt.py lines 15-100): read `testexpr =
ast[0]`, drop a trailing RETURN_LAST end marker, run Variant A when the
rule is (iflaststmt, (testexpr, stmts)) and return its verdict if it
produced one, else run Variant B. -/
def iflaststmt (insts : List Inst) (o2i : Int → Option Nat) (lhs : String)
    (n : Int) (ruleL : String) (ruleR : List String) (ast : Node)
    (tokens : List TokData) (first last : Int) : Option Bool :=
  match ast.childAt 0 with
  | none => none
  | some testexpr =>
    match pyIdx tokens last with
    | none => none
    | some tl0 =>
      let last1 := if tl0.kind = "RETURN_LAST" then last - 1 else last
      if ruleL = "iflaststmt" ∧ ruleR = ["testexpr", "stmts"] then
        match variantA insts o2i ast tokens last1 with
        | none => none
        | some (some b) => some b
        | some none => variantB n ruleR testexpr tokens first last1
      else variantB n ruleR testexpr tokens first last1

theorem pyIdx_cons_zero {α : Type} (a : α) (l : List α) : pyIdx (a :: l) 0 = some a := rfl

theorem pyIdx_cons_one {α : Type} (a b : α) (l : List α) : pyIdx (a :: b :: l) 1 = some b := rfl

/-- A Variant-B test expression with a conditional branch token jumping to
`target` (branch instruction sitting at offset 12). -/
def c1test (target : Int) : Node :=
  Node.nt "testexpr"
    [Node.nt "testtrue"
      [Node.nt "expr" [],
       Node.tok { kind := "POP_JUMP_IF_FALSE", attr := target, offset := 12 }]]

/-- Candidate subtree for the concrete Variant-B scenarios. -/
def c1ast (target : Int) : Node :=
  Node.nt "iflaststmtc" [c1test target, Node.nt "stmts" []]

/-- Token window spanning offsets 10, 20, 30 (first = 10, body,
last = 30). -/
def c1tokens : List TokData :=
  [{ kind := "SETUP_X", offset := 10 }, { kind := "LOAD_NAME", offset := 20 },
   { kind := "RETURN_VALUE", offset := 30 }]

/-- C1: in Variant B (short-circuit boolean test carrying a conditional
branch), whenever the branch target lies in the half-open span from the
first token's offset (inclusive) to the last token's offset (exclusive),
offsets taken after the RETURN_LAST adjustment, the predicate returns
true (reject) — the code rejects such targets unconditionally, so in
particular whenever the documented exception refinements do not apply;
and on the concrete window of offsets 10, 20, 30: target 25 yields true,
target 30 yields false, target 5 yields false. -/
theorem c1_theorem :
    (∀ (insts : List Inst) (o2i : Int → Option Nat) (lhs : String) (n : Int)
       (ruleL : String) (ruleR : List String) (astKind tkind : String)
       (texRest astRest rest : List Node) (c0 : Node) (d : TokData)
       (tokens : List TokData) (first last : Int) (tf tl : TokData),
       ruleL ≠ "iflaststmt" →
       (tkind = "testtrue" ∨ tkind = "testtruec" ∨ tkind = "testfalse" ∨
         tkind = "testfalsec") →
       strStartsWith d.kind "POP_JUMP_IF_" = true →
       pyIdx tokens last = some tl → tl.kind ≠ "RETURN_LAST" →
       last ≠ n →
       pyIdx tokens first = some tf →
       tf.offset ≤ d.attr → d.attr < tl.offset →
       iflaststmt insts o2i lhs n ruleL ruleR
         (Node.nt astKind
           (Node.nt "testexpr" (Node.nt tkind (c0 :: Node.tok d :: rest) :: texRest)
             :: astRest))
         tokens first last = some true) ∧
    iflaststmt [] (fun _ => none) "iflaststmtc" 3 "iflaststmtc" ["testexpr", "stmts"]
      (c1ast 25) c1tokens 0 2 = some true ∧
    iflaststmt [] (fun _ => none) "iflaststmtc" 3 "iflaststmtc" ["testexpr", "stmts"]
      (c1ast 30) c1tokens 0 2 = some false ∧
    iflaststmt [] (fun _ => none) "iflaststmtc" 3 "iflaststmtc" ["testexpr", "stmts"]
      (c1ast 5) c1tokens 0 2 = some false := by
  refine ⟨?_, by decide, by decide, by decide⟩
  intro insts o2i lhs n ruleL ruleR astKind tkind texRest astRest rest c0 d
    tokens first last tf tl hrule htkind hps hlast hlk hln hfirst h1 h2
  have hmem : tkind ∈ (["testtrue", "testtruec", "testfalse", "testfalsec"] : List String) := by
    rcases htkind with h | h | h | h <;> simp [h]
  unfold iflaststmt
  simp only [Node.childAt, pyIdx_cons_zero, hlast, hlk, if_neg, ite_false,
    if_false, hrule, false_and]
  unfold variantB
  simp only [Node.childAt, pyIdx_cons_zero, pyIdx_cons_one, Node.kind, Node.lenN,
    List.length_cons, if_pos hmem]
  rw [if_neg (by omega), if_pos (by omega : rest.length + 1 + 1 > 1), if_pos hps,
    if_neg hln]
  simp only [Node.attrN, hfirst, hlast]
  rw [if_pos ⟨h1, h2⟩]

/-- The scan of iflaststmt.py lines 45-52 finds a second jump: some
instruction at or after index `k`, before the target offset, jumps to the
same target, and every instruction in between lies before the target and
is no such jump. -/
def FoundSecondJump (insts : List Inst) (tgt : Int) (k : Nat) : Prop :=
  ∃ m, k ≤ m ∧
    (∃ im, insts.get? m = some im ∧ im.offset < tgt ∧ isSameTargetJump tgt im = true) ∧
    (∀ l, k ≤ l → l < m → ∃ il, insts.get? l = some il ∧ il.offset < tgt ∧
      isSameTargetJump tgt il = false)

/-- The scan of iflaststmt.py lines 45-52 runs to the target offset
without finding a second jump. -/
def ScanStops (insts : List Inst) (tgt : Int) (k : Nat) : Prop :=
  ∃ m, k ≤ m ∧
    (∃ im, insts.get? m = some im ∧ ¬ im.offset < tgt) ∧
    (∀ l, k ≤ l → l < m → ∃ il, insts.get? l = some il ∧ il.offset < tgt ∧
      isSameTargetJump tgt il = false)

theorem not_found_of_oob (insts : List Inst) (tgt : Int) (i : Nat)
    (hi : insts.length ≤ i) : ¬ FoundSecondJump insts tgt i := by
  rintro ⟨m, hm, ⟨im, hgm, -, -⟩, -⟩
  rw [List.get?_eq_none.mpr (le_trans hi hm)] at hgm
  cases hgm

theorem not_stops_of_oob (insts : List Inst) (tgt : Int) (i : Nat)
    (hi : insts.length ≤ i) : ¬ ScanStops insts tgt i := by
  rintro ⟨m, hm, ⟨im, hgm, -⟩, -⟩
  rw [List.get?_eq_none.mpr (le_trans hi hm)] at hgm
  cases hgm

theorem found_step (insts : List Inst) (tgt : Int) (i : Nat) (inst : Inst)
    (hgi : insts.get? i = some inst) (h1 : inst.offset < tgt)
    (h2 : isSameTargetJump tgt inst = false) :
    FoundSecondJump insts tgt (i + 1) ↔ FoundSecondJump insts tgt i := by
  constructor
  · rintro ⟨m, hm, hit, pre⟩
    refine ⟨m, by omega, hit, fun l hl1 hl2 => ?_⟩
    rcases Nat.eq_or_lt_of_le hl1 with heq | hlt
    · exact ⟨inst, heq ▸ hgi, h1, h2⟩
    · exact pre l hlt hl2
  · rintro ⟨m, hm, ⟨im, hgm, hlt, hjump⟩, pre⟩
    rcases Nat.eq_or_lt_of_le hm with heq | hgt
    · rw [← heq] at hgm
      rw [hgi] at hgm
      cases hgm
      rw [hjump] at h2
      cases h2
    · exact ⟨m, hgt, ⟨im, hgm, hlt, hjump⟩, fun l hl1 hl2 => pre l (by omega) hl2⟩

theorem stops_step (insts : List Inst) (tgt : Int) (i : Nat) (inst : Inst)
    (hgi : insts.get? i = some inst) (h1 : inst.offset < tgt)
    (h2 : isSameTargetJump tgt inst = false) :
    ScanStops insts tgt (i + 1) ↔ ScanStops insts tgt i := by
  constructor
  · rintro ⟨m, hm, hit, pre⟩
    refine ⟨m, by omega, hit, fun l hl1 hl2 => ?_⟩
    rcases Nat.eq_or_lt_of_le hl1 with heq | hlt
    · exact ⟨inst, heq ▸ hgi, h1, h2⟩
    · exact pre l hlt hl2
  · rintro ⟨m, hm, ⟨im, hgm, hlt⟩, pre⟩
    rcases Nat.eq_or_lt_of_le hm with heq | hgt
    · rw [← heq] at hgm
      rw [hgi] at hgm
      cases hgm
      exact absurd h1 hlt
    · exact ⟨m, hgt, ⟨im, hgm, hlt⟩, fun l hl1 hl2 => pre l (by omega) hl2⟩

theorem scanFromAux_false_iff (insts : List Inst) (tgt : Int) :
    ∀ (fuel i : Nat), insts.length + 1 - i ≤ fuel →
      (scanFromAux insts tgt fuel i = some false ↔ FoundSecondJump insts tgt i) := by
  intro fuel
  induction fuel with
  | zero =>
    intro i hfuel
    simp only [scanFromAux]
    constructor
    · intro h
      cases h
    · intro hf
      exact absurd hf (not_found_of_oob insts tgt i (by omega))
  | succ fuel ih =>
    intro i hfuel
    simp only [scanFromAux]
    cases hgi : insts.get? i with
    | none =>
      have hlen : insts.length ≤ i := List.get?_eq_none.mp hgi
      constructor
      · intro h
        cases h
      · intro hf
        exact absurd hf (not_found_of_oob insts tgt i hlen)
    | some inst =>
      dsimp only
      by_cases h1 : inst.offset < tgt
      · rw [if_pos h1]
        by_cases h2 : isSameTargetJump tgt inst = true
        · rw [if_pos h2]
          constructor
          · intro _
            exact ⟨i, le_refl i, ⟨inst, hgi, h1, h2⟩, fun l hl1 hl2 => absurd (lt_of_le_of_lt hl1 hl2) (lt_irrefl i)⟩
          · intro _
            rfl
        · rw [if_neg h2]
          have h2' : isSameTargetJump tgt inst = false := by
            cases hb : isSameTargetJump tgt inst
            · rfl
            · exact absurd hb h2
          rw [ih (i + 1) (by omega)]
          exact found_step insts tgt i inst hgi h1 h2'
      · rw [if_neg h1]
        constructor
        · intro h
          cases h
        · rintro ⟨m, hm, ⟨im, hgm, hlt, hjump⟩, pre⟩
          rcases Nat.eq_or_lt_of_le hm with heq | hgt
          · rw [← heq] at hgm
            rw [hgi] at hgm
            cases hgm
            exact absurd hlt h1
          · rcases pre i (le_refl i) hgt with ⟨il, hgl, hllt, -⟩
            rw [hgi] at hgl
            cases hgl
            exact absurd hllt h1

theorem scanFromAux_true_iff (insts : List Inst) (tgt : Int) :
    ∀ (fuel i : Nat), insts.length + 1 - i ≤ fuel →
      (scanFromAux insts tgt fuel i = some true ↔ ScanStops insts tgt i) := by
  intro fuel
  induction fuel with
  | zero =>
    intro i hfuel
    simp only [scanFromAux]
    constructor
    · intro h
      cases h
    · intro hf
      exact absurd hf (not_stops_of_oob insts tgt i (by omega))
  | succ fuel ih =>
    intro i hfuel
    simp only [scanFromAux]
    cases hgi : insts.get? i with
    | none =>
      have hlen : insts.length ≤ i := List.get?_eq_none.mp hgi
      constructor
      · intro h
        cases h
      · intro hf
        exact absurd hf (not_stops_of_oob insts tgt i hlen)
    | some inst =>
      dsimp only
      by_cases h1 : inst.offset < tgt
      · rw [if_pos h1]
        by_cases h2 : isSameTargetJump tgt inst = true
        · rw [if_pos h2]
          constructor
          · intro h
            cases h
          · rintro ⟨m, hm, ⟨im, hgm, hlt⟩, pre⟩
            rcases Nat.eq_or_lt_of_le hm with heq | hgt
            · rw [← heq] at hgm
              rw [hgi] at hgm
              cases hgm
              exact absurd h1 hlt
            · rcases pre i (le_refl i) hgt with ⟨il, hgl, -, hjl⟩
              rw [hgi] at hgl
              cases hgl
              rw [h2] at hjl
              cases hjl
        · rw [if_neg h2]
          have h2' : isSameTargetJump tgt inst = false := by
            cases hb : isSameTargetJump tgt inst
            · rfl
            · exact absurd hb h2
          rw [ih (i + 1) (by omega)]
          exact stops_step insts tgt i inst hgi h1 h2'
      · rw [if_neg h1]
        constructor
        · intro _
          exact ⟨i, le_refl i, ⟨inst, hgi, h1⟩, fun l hl1 hl2 => absurd (lt_of_le_of_lt hl1 hl2) (lt_irrefl i)⟩
        · intro _
          rfl

theorem scanFrom_false_iff (insts : List Inst) (tgt : Int) (i : Nat) :
    scanFrom insts tgt i = some false ↔ FoundSecondJump insts tgt i :=
  scanFromAux_false_iff insts tgt (insts.length + 1) i (Nat.sub_le _ _)

theorem scanFrom_true_iff (insts : List Inst) (tgt : Int) (i : Nat) :
    scanFrom insts tgt i = some true ↔ ScanStops insts tgt i :=
  scanFromAux_true_iff insts tgt (insts.length + 1) i (Nat.sub_le _ _)

/-- C1 witness: the containment law applied at the concrete window
(offsets 10, 20, 30; branch target 25). -/
theorem c1_witness :
    iflaststmt [] (fun _ => none) "iflaststmtc" 3 "iflaststmtc" ["testexpr", "stmts"]
      (Node.nt "iflaststmtc"
        (Node.nt "testexpr"
          (Node.nt "testtrue"
            (Node.nt "expr" []
              :: Node.tok { kind := "POP_JUMP_IF_FALSE", attr := 25, offset := 12 } :: [])
            :: [])
          :: [Node.nt "stmts" []]))
      c1tokens 0 2 = some true :=
  c1_theorem.1 [] (fun _ => none) "iflaststmtc" 3 "iflaststmtc" ["testexpr", "stmts"]
    "iflaststmtc" "testtrue" [] [Node.nt "stmts" []] [] (Node.nt "expr" [])
    { kind := "POP_JUMP_IF_FALSE", attr := 25, offset := 12 } c1tokens 0 2
    { kind := "SETUP_X", offset := 10 } { kind := "RETURN_VALUE", offset := 30 }
    (by decide) (Or.inl rfl) (by decide) rfl (by decide) (by decide)
    rfl (by decide) (by decide)

/-- Instruction array for the Variant-A scenario: the instruction before
the body start (index 0) is an absolute jump to 50, and the scan starting
at the body start finds a second jump to 50 at index 2. -/
def c2insts : List Inst :=
  [{ offset := 0, optype := "jabs", argval := 50 },
   { offset := 2, optype := "other", argval := 0 },
   { offset := 4, optype := "jrel", argval := 50 },
   { offset := 50, optype := "other", argval := 0 }]

/-- Candidate subtree for the Variant-A scenario: its statement body's
first instruction sits at offset 2. -/
def c2ast : Node :=
  Node.nt "iflaststmt"
    [Node.nt "testexpr" [],
     Node.nt "stmts" [Node.tok { kind := "STORE_NAME", offset := 2 }]]

/-- Offset-to-instruction-index map of the Variant-A scenario. -/
def c2o2i : Int → Option Nat :=
  fun o => if o = 2 then some 1 else none

/-- Token window for the Variant-A scenario: the last token's offset 40
differs from the jump target 50. -/
def c2tokens : List TokData :=
  [{ kind := "A_TOK", offset := 10 }, { kind := "B_TOK", offset := 20 },
   { kind := "C_TOK", offset := 40 }]

/-- C2 counterexample: in the Variant-A shape with a jump target that
differs from the last token's offset, the scan FINDS another jump to the
same target (index 2 of the instruction array) — and the predicate
returns false (accept, iflaststmt.py line 49), not true (reject) as the
claim states. -/
theorem c2_counterexample :
    iflaststmt c2insts c2o2i "iflaststmt" 3 "iflaststmt" ["testexpr", "stmts"]
      c2ast c2tokens 0 2 = some false ∧
    iflaststmt c2insts c2o2i "iflaststmt" 3 "iflaststmt" ["testexpr", "stmts"]
      c2ast c2tokens 0 2 ≠ some true := by
  constructor
  · decide
  · decide

/-- C2 (amended): for rule shape (iflaststmt, (testexpr, stmts)) with an
unconditional absolute jump just before the first body instruction: if
the jump's target equals the offset of the token at the adjusted last
index the Variant-A step accepts (falls through without returning); if
the targets differ, it scans the instructions from the body start up to
the jump target for another jump to the same target and returns accept
(false) when such a second jump is found, and reject (true) when the scan
reaches the target without finding one. -/
theorem c2_theorem (insts : List Inst) (o2i : Int → Option Nat) (ast : Node)
    (tokens : List TokData) (last : Int) (a1 : Node) (fc : TokData) (k : Nat)
    (tli : Inst) (tl : TokData)
    (h1 : ast.childAt 1 = some a1) (h2 : a1.firstTokenN = some fc)
    (h3 : o2i fc.offset = some k)
    (h4 : pyIdx insts ((k : Int) - 1) = some tli)
    (h5 : tli.optype = "jabs")
    (h6 : pyIdx tokens last = some tl) :
    (tli.argval = tl.offset → variantA insts o2i ast tokens last = some none) ∧
    (tli.argval ≠ tl.offset →
      ((variantA insts o2i ast tokens last = some (some false) ↔
          FoundSecondJump insts tli.argval k) ∧
       (variantA insts o2i ast tokens last = some (some true) ↔
          ScanStops insts tli.argval k))) := by
  unfold variantA
  rw [h1]
  dsimp only
  rw [h2]
  dsimp only
  rw [h3]
  dsimp only
  rw [h4]
  dsimp only
  rw [if_pos h5, h6]
  dsimp only
  constructor
  · intro heq
    rw [if_neg (by simp [heq])]
  · intro hne
    rw [if_pos hne]
    have hf := scanFrom_false_iff insts tli.argval k
    have ht := scanFrom_true_iff insts tli.argval k
    cases hscan : scanFrom insts tli.argval k with
    | none =>
      rw [hscan] at hf ht
      simp only [hscan]
      constructor
      · constructor
        · intro h
          cases h
        · intro h
          exact absurd (hf.mpr h) (by simp)
      · constructor
        · intro h
          cases h
        · intro h
          exact absurd (ht.mpr h) (by simp)
    | some b =>
      rw [hscan] at hf ht
      simp only [hscan]
      cases b
      · simp only [Option.some.injEq]
        constructor
        · simpa using hf
        · constructor
          · intro h
            cases h
          · intro h
            have := ht.mpr h
            cases this
      · simp only [Option.some.injEq]
        constructor
        · constructor
          · intro h
            cases h
          · intro h
            have := hf.mpr h
            cases this
        · simpa using ht

/-- C2 witness: the amended rule applied at the concrete Variant-A
scenario: the target 50 differs from the last token's offset 40, the
predicate accepts (returns false), and the characterization yields the
second jump to 50. -/
theorem c2_witness : FoundSecondJump c2insts 50 1 :=
  ((c2_theorem c2insts c2o2i c2ast c2tokens 2
      (Node.nt "stmts" [Node.tok { kind := "STORE_NAME", offset := 2 }])
      { kind := "STORE_NAME", offset := 2 } 1
      { offset := 0, optype := "jabs", argval := 50 }
      { kind := "C_TOK", offset := 40 }
      rfl rfl rfl rfl rfl rfl).2
    (by decide)).1.mp (by decide)

/-- Test expression of the chained-and scenario: conditional branch with
target 40. -/
def c3ast : Node :=
  Node.nt "iflaststmtc"
    [Node.nt "testexpr"
      [Node.nt "testtrue"
        [Node.nt "expr" [],
         Node.tok { kind := "POP_JUMP_IF_FALSE", attr := 40, offset := 22 }]],
     Node.nt "stmts" []]

/-- Token window of the chained-and scenario: the token before `first` is
a POP_JUMP_IF_FALSE whose target equals the candidate's target 40. -/
def c3tokens : List TokData :=
  [{ kind := "POP_JUMP_IF_FALSE", attr := 40, offset := 10 },
   { kind := "LOAD_NAME", offset := 20 },
   { kind := "RETURN_VALUE", offset := 30 }]

/-- C3 counterexample: at step 4 (token before `first` is a
POP_JUMP_IF_FALSE) with that token's target EQUAL to the candidate's
jump target, the code returns the equality itself, i.e. true = reject
(iflaststmt.py line 91) — not false = accept as the claim states. -/
theorem c3_counterexample :
    iflaststmt [] (fun _ => none) "iflaststmtc" 3 "iflaststmtc" ["testexpr", "stmts"]
      c3ast c3tokens 1 2 = some true ∧
    iflaststmt [] (fun _ => none) "iflaststmtc" 3 "iflaststmtc" ["testexpr", "stmts"]
      c3ast c3tokens 1 2 ≠ some false := by
  constructor
  · decide
  · decide

/-- C3 (amended): at step 4 — Variant B, containment not triggered, no
token beyond the adjusted last index, `first > 0`, and the token before
`first` a POP_JUMP_IF_FALSE — the predicate returns the equality of that
token's jump target with the candidate's own target: it REJECTS (true)
exactly when the two targets are equal and accepts (false) otherwise. -/
theorem c3_theorem (insts : List Inst) (o2i : Int → Option Nat) (lhs : String)
    (n : Int) (ruleL : String) (ruleR : List String) (astKind tkind : String)
    (texRest astRest rest : List Node) (c0 : Node) (d : TokData)
    (tokens : List TokData) (first last : Int) (tf tl tp : TokData)
    (hrule : ruleL ≠ "iflaststmt")
    (htkind : tkind = "testtrue" ∨ tkind = "testtruec" ∨ tkind = "testfalse" ∨
      tkind = "testfalsec")
    (hps : strStartsWith d.kind "POP_JUMP_IF_" = true)
    (hlast : pyIdx tokens last = some tl) (hlk : tl.kind ≠ "RETURN_LAST")
    (hln : last ≠ n)
    (hfirst : pyIdx tokens first = some tf)
    (hcont : ¬(tf.offset ≤ d.attr ∧ d.attr < tl.offset))
    (hnoex : ¬(last + 1 < n))
    (hf0 : first > 0)
    (hprev : pyIdx tokens (first - 1) = some tp)
    (hpk : tp.kind = "POP_JUMP_IF_FALSE") :
    iflaststmt insts o2i lhs n ruleL ruleR
      (Node.nt astKind
        (Node.nt "testexpr" (Node.nt tkind (c0 :: Node.tok d :: rest) :: texRest)
          :: astRest))
      tokens first last = some (decide (tp.attr = d.attr)) := by
  have hmem : tkind ∈ (["testtrue", "testtruec", "testfalse", "testfalsec"] : List String) := by
    rcases htkind with h | h | h | h <;> simp [h]
  unfold iflaststmt
  simp only [Node.childAt, pyIdx_cons_zero, hlast, hlk, if_neg, ite_false,
    if_false, hrule, false_and]
  unfold variantB
  simp only [Node.childAt, pyIdx_cons_zero, pyIdx_cons_one, Node.kind, Node.lenN,
    List.length_cons, if_pos hmem]
  rw [if_neg (by omega), if_pos (by omega : rest.length + 1 + 1 > 1), if_pos hps,
    if_neg hln]
  simp only [Node.attrN, hfirst, hlast]
  rw [if_neg hcont, if_neg hnoex, if_pos hf0, hprev]
  dsimp only
  rw [if_pos hpk]

/-- C3 witness: the amended step-4 rule at the concrete chained-and
scenario with equal targets, giving reject (true). -/
theorem c3_witness :
    iflaststmt [] (fun _ => none) "iflaststmtc" 3 "iflaststmtc" ["testexpr", "stmts"]
      (Node.nt "iflaststmtc"
        (Node.nt "testexpr"
          (Node.nt "testtrue"
            (Node.nt "expr" []
              :: Node.tok { kind := "POP_JUMP_IF_FALSE", attr := 40, offset := 22 } :: [])
            :: [])
          :: [Node.nt "stmts" []]))
      c3tokens 1 2 =
      some (decide ((({ kind := "POP_JUMP_IF_FALSE", attr := 40, offset := 10 } : TokData)).attr =
        (({ kind := "POP_JUMP_IF_FALSE", attr := 40, offset := 22 } : TokData)).attr)) :=
  c3_theorem [] (fun _ => none) "iflaststmtc" 3 "iflaststmtc" ["testexpr", "stmts"]
    "iflaststmtc" "testtrue" [] [Node.nt "stmts" []] [] (Node.nt "expr" [])
    { kind := "POP_JUMP_IF_FALSE", attr := 40, offset := 22 } c3tokens 1 2
    { kind := "LOAD_NAME", offset := 20 } { kind := "RETURN_VALUE", offset := 30 }
    { kind := "POP_JUMP_IF_FALSE", attr := 40, offset := 10 }
    (by decide) (Or.inl rfl) (by decide) rfl (by decide) (by decide)
    rfl (by decide) (by decide) (by decide) rfl (by decide)

/-- Externally configured data of the renderer: the PRECEDENCE table and
the NO_PARENTHESIS_EVER value (semantics/consts.py) and the
`is_lambda_mode` classifier (semantics/helper.py), none of which are
among the given sources; they are passed as opaque configuration. -/
structure Config where
  precTable : String → Option Int
  noParensEver : Int
  isLambdaMode : String → Bool

/-- `PRECEDENCE.get(kind, -2)` (pysource.py line 539). -/
def PRECEDENCE_get (precTable : String → Option Int) (k : String) : Int :=
  (precTable k).getD (-2)

/-- Whether `repr(node.pattr)` starts with a minus sign; only a `Token`
carries `pattr`. -/
def Node.pattrNegN : Node → Option Bool
  | .tok d => some d.pattrNeg
  | .nt _ _ => none

/-- The body of `n_expr` up to (but excluding) the final restore of the
saved precedence (pysource.py lines 526-552): install the precedence of
the discriminating descendant (6 for a negative constant) and render the
first child, parenthesized when the saved precedence is lower. -/
def n_exprBody (cfg : Config) (childRender : Node → WalkState → Option WalkState)
    (node : Node) (st : WalkState) : Option WalkState := do
  let first_child ← node.childAt 0
  let p := st.prec
  let nn ←
    if strStartsWith first_child.kind "bin_op" then do
      let a ← node.childAt 0
      let b ← a.childAt (-1)
      b.childAt 0
    else node.childAt 0
  let st1 := { st with prec := PRECEDENCE_get cfg.precTable nn.kind }
  let st2 ←
    if nn.kind = "LOAD_CONST" then do
      let pn ← nn.pattrNegN
      pure (if pn then { st1 with prec := 6 } else st1)
    else pure st1
  if p < st2.prec then do
    let sA := write st2 ["(".toList]
    let sB ← childRender first_child sA
    pure (write sB [")".toList])
  else childRender first_child st2

/-- `SourceWalker.n_expr` (pysource.py lines 526-554), the child render
`self.preorder` passed as a function: save the precedence, run the body,
and restore the saved precedence at the single exit (line 553) before
pruning. -/
def n_expr (cfg : Config) (childRender : Node → WalkState → Option WalkState)
    (node : Node) (st : WalkState) : Option WalkState := do
  let p := st.prec
  let stB ← n_exprBody cfg childRender node st
  pure { stB with prec := p }

/-- `SourceWalker.n_return_expr` (pysource.py lines 605-611): for a
single expr child, install PRECEDENCE[yield] - 1 — a missing table entry
would be a KeyError — and render through `n_expr`; the installed
precedence is NOT restored afterwards. -/
def n_return_expr (cfg : Config) (childRender : Node → WalkState → Option WalkState)
    (node : Node) (st : WalkState) : Option WalkState := do
  let len ← node.lenN
  if len = 1 then
    let n0 ← node.childAt 0
    if n0.kind = "expr" then do
      let yp ← cfg.precTable "yield"
      n_expr cfg childRender n0 { st with prec := yp - 1 }
    else n_expr cfg childRender node st
  else n_expr cfg childRender node st

/-- C7 counterexample: it is NOT the case that every node-render handler
restores the caller's precedence: `n_return_expr` installs
PRECEDENCE[yield] - 1 (pysource.py line 608) and returns without
restoring the previous value, so its exit precedence is a constant
independent of the caller's — for any table value there is a caller
precedence that is not preserved. -/
theorem c7_counterexample :
    ¬ (∀ (cfg : Config) (childRender : Node → WalkState → Option WalkState)
        (node : Node) (st st' : WalkState),
        n_return_expr cfg childRender node st = some st' → st'.prec = st.prec) := by
  intro h
  have h2 := h
    { precTable := fun k => if k = "yield" then some 0 else none
      noParensEver := 100
      isLambdaMode := fun _ => false }
    (fun _ s => some s)
    (Node.nt "return_expr" [Node.nt "expr" [Node.nt "attribute" []]])
    (initWalkState [])
    { initWalkState [] with prec := -1 }
    rfl
  have h3 : (-1 : Int) = 100 := h2
  cases h3

mutual

/-- Structural equality of tree nodes (Python `==` between two nodes). -/
def Node.beqN : Node → Node → Bool
  | .tok d1, .tok d2 => decide (d1 = d2)
  | .nt k1 cs1, .nt k2 cs2 => decide (k1 = k2) && Node.beqListN cs1 cs2
  | _, _ => false

/-- Structural equality of child lists. -/
def Node.beqListN : List Node → List Node → Bool
  | [], [] => true
  | a :: as, b :: bs => Node.beqN a b && Node.beqListN as bs
  | _, _ => false

end

mutual

/-- Size of a tree node (used as loop fuel). -/
def Node.sizeN : Node → Nat
  | .tok _ => 1
  | .nt _ cs => 1 + Node.sizeListN cs

/-- Total size of a child list. -/
def Node.sizeListN : List Node → Nat
  | [] => 0
  | a :: as => Node.sizeN a + Node.sizeListN as

end

/-- Python `x == node` for an optional (possibly unbound/None) left side. -/
def optNodeEq : Option Node → Node → Bool
  | some a, b => Node.beqN a b
  | none, _ => false

/-- Normal or pruned exit of a render handler (a prune escapes through
the exception caught by the generic tree traversal). -/
inductive RExit where
  | normal : RExit
  | pruned : RExit

/-- Fuel-driven singleton-stripping loop of `get_comprehension_function`
(pysource.py lines 1503-1505): while the tree has one child or is one of
the wrapper kinds, install precedence 100 and descend to the first
child; taking `len` of a Token or a missing child is an error; the fuel
(the node size at the call site) cannot run out on a finite tree. -/
def stripSingletonsFuel : Nat → Node → WalkState → Option (Node × WalkState)
  | 0, _, _ => none
  | fuel + 1, tree, st =>
    match tree.lenN with
    | none => none
    | some len =>
      if len = 1 ∨ tree.kind ∈ (["stmt", "sstmt", "return", "return_expr"] : List String) then
        match tree.childAt 0 with
        | none => none
        | some c => stripSingletonsFuel fuel c { st with prec := 100 }
      else some (tree, st)

/-- `SourceWalker.get_comprehension_function` (pysource.py lines
1463-1506), the nested tree build (`build_ast` with the parser shuffling
of lines 1477-1495) passed as `buildAst`: install precedence 27, locate
the code-object token (through `load_genexpr` when needed; `attr` of a
nonterminal or a non-code `attr` is an error), build and customize the
nested tree, unwrap `lambda_start`, and strip singleton derivations
(installing precedence 100 at each step); the installed precedence is
not restored. -/
def get_comprehension_function (buildAst : WalkState → Option (Node × WalkState))
    (node : Node) (code_index : Int) (st : WalkState) : Option (Node × WalkState) := do
  let st := { st with prec := 27 }
  let code_node ← node.childAt code_index
  let code_node ← if code_node.kind = "load_genexpr" then code_node.childAt 0 else pure code_node
  match code_node with
  | Node.nt _ _ => none
  | Node.tok d =>
    if d.attrIsCode then do
      let (tree, st) ← buildAst st
      let st := { st with customizeCalled := true }
      let tree ← if tree.kind = "lambda_start" then tree.childAt 0 else pure tree
      stripSingletonsFuel (Node.sizeN tree) tree st
    else none

/-- The values bound by the per-kind extraction step of
`comprehension_walk_newer` (pysource.py lines 1148-1205): the possibly
reassigned tree, the store and iteration nodes (`none` models a Python
variable left unbound or None), and the collection node. -/
structure CwnInit where
  tree : Node
  store : Option Node
  n : Option Node
  coll : Option Node

/-- The per-kind extraction step of `comprehension_walk_newer`
(pysource.py lines 1148-1205): locate the store node, the iteration node
and possibly the collection node, depending on the grammar rule that
produced the comprehension; failed asserts and bad indexing are errors,
and the commented ??? fall-through cases leave the iteration node
unbound. -/
def cwnExtract (node tree : Node) (iter_index : Option Int) (coll0 : Option Node) :
    Option CwnInit := do
  if node.kind = "list_comp_async" then do
    let t0 ← tree.childAt 0
    let tree ←
      if t0.kind = "expr" then do
        let t00 ← t0.childAt 0
        pure (if t00.kind = "list_comp_async" then t00 else tree)
      else pure tree
    let t0' ← tree.childAt 0
    if t0'.kind = "BUILD_LIST_0" then do
      let list_afor2 ← tree.childAt 2
      if list_afor2.kind = "list_afor2" then do
        let store ← list_afor2.childAt 1
        if store.kind = "store" then do
          let nn ← list_afor2.childAt 2
          pure { tree := tree, store := some store, n := some nn, coll := coll0 }
        else none
      else none
    else pure { tree := tree, store := none, n := none, coll := coll0 }
  else if node.kind = "dict_comp_async" ∨ node.kind = "set_comp_async" then do
    let t0 ← tree.childAt 0
    if t0.kind = "BUILD_MAP_0" ∨ t0.kind = "BUILD_SET_0" then do
      let gfa ← tree.childAt 1
      if gfa.kind = "genexpr_func_async" then do
        let store ← gfa.childAt 2
        if store.kind = "store" then do
          let nn ← gfa.childAt 3
          pure { tree := tree, store := some store, n := some nn, coll := coll0 }
        else none
      else
        if gfa.kind = "set_afor2" then do
          let nn ← gfa.childAt 1
          let store ← nn.childAt 1
          let c ← node.childAt 3
          pure { tree := tree, store := some store, n := some nn, coll := some c }
        else none
    else pure { tree := tree, store := none, n := none, coll := coll0 }
  else if node.kind = "list_afor" then do
    let c ← node.childAt 0
    let la2 ← node.childAt 1
    if la2.kind = "list_afor2" then do
      let store ← la2.childAt 1
      if store.kind = "store" then do
        let nn ← la2.childAt 2
        pure { tree := tree, store := some store, n := some nn, coll := some c }
      else none
    else none
  else if node.kind = "set_afor2" then do
    let c ← node.childAt 0
    let sia ← node.childAt 1
    if sia.kind = "set_iter_async" then do
      let store ← sia.childAt 1
      if store.kind = "store" then do
        let nn ← sia.childAt 2
        pure { tree := tree, store := some store, n := some nn, coll := some c }
      else none
    else none
  else
    match iter_index with
    | none => none
    | some i => do
      let nn ← tree.childAt i
      pure { tree := tree, store := none, n := some nn, coll := coll0 }

/-- The child scan of `comprehension_walk_newer` for trees whose
iteration node and store sit among the direct children
(pysource.py lines 1216-1223). -/
def cwnForScan (cs : List Node) (n0 store0 : Option Node) : Option Node × Option Node :=
  cs.foldl
    (fun acc k =>
      if k.kind ∈ (["comp_iter", "list_iter", "set_iter"] : List String) then (some k, acc.2)
      else if k.kind = "store" then (acc.1, some k)
      else acc)
    (n0, store0)

/-- The guard step of `comprehension_walk_newer` at pysource.py lines
1207-1236: scan direct children for the handled tree kinds, pass for the
kinds handled earlier, and otherwise demand a bound iteration node —
pruning on `return_expr_lambda` (`some none`) and failing the shape
assert otherwise. -/
def cwnStep3 (tree : Node) (n0 store0 : Option Node) :
    Option (Option (Option Node × Option Node)) :=
  if tree.kind ∈ (["dict_comp_func", "genexpr_func_async", "generator_exp", "list_comp",
      "set_comp", "set_comp_func", "set_comp_func_header"] : List String) then
    match tree with
    | Node.tok _ => none
    | Node.nt _ cs => some (some (cwnForScan cs n0 store0))
  else if tree.kind ∈ (["list_comp_async", "dict_comp_async", "set_afor2"] : List String) then
    some (some (n0, store0))
  else
    match n0 with
    | none => none
    | some nn =>
      if nn.kind = "return_expr_lambda" then some none
      else if nn.kind ∈ (["list_iter", "comp_iter", "set_iter_async"] : List String) then
        some (some (n0, store0))
      else none

/-- Mutable bindings of the descent loop of `comprehension_walk_newer`
(pysource.py lines 1254-1323). -/
structure CwnLoopSt where
  n : Node
  store : Option Node
  comp_store : Option Node
  if_nodes : List Node
  if_node_parent : Option Node
  coll : Option Node

/-- The fuel-driven descent loop of `comprehension_walk_newer`
(pysource.py lines 1254-1323): while the iteration node is one of the
wrapper kinds, descend one nesting (collecting a store on the way),
then classify the new node — for-clauses record the collection and
store, if-clauses are accumulated in order (recording the parent for
plain list ifs), compound boolean if-clauses are accumulated whole; the
loop is pure tree navigation and touches no renderer state.  The fuel
(the node size at the call site) cannot run out, as each iteration
descends strictly. -/
def cwnLoop : Nat → CwnLoopSt → Option CwnLoopSt
  | 0, _ => none
  | fuel + 1, ls =>
    if ls.n.kind ∈ (["list_iter", "list_afor", "list_afor2", "comp_iter", "set_afor",
        "set_afor2", "set_iter", "set_iter_async"] : List String) then do
      let (n, store) ←
        if ls.n.kind ∈ (["list_afor", "set_afor"] : List String) then do
          pure ((← ls.n.childAt 1), ls.store)
        else if ls.n.kind ∈ (["list_afor2", "set_afor2", "set_iter_async"] : List String) then do
          let n1 ← ls.n.childAt 1
          pure ((← ls.n.childAt 2), if n1.kind = "store" then some n1 else ls.store)
        else do
          pure ((← ls.n.childAt 0), ls.store)
      let ls := { ls with n := n, store := store }
      if n.kind ∈ (["comp_for", "list_for", "set_for"] : List String) then do
        let n2 ← n.childAt 2
        let (store2, comp_store2) :=
          if n2.kind = "store" ∧ ls.store.isNone then
            (some n2, if ls.comp_store.isNone then some n2 else ls.comp_store)
          else (ls.store, ls.comp_store)
        let n3 ← n.childAt 3
        if n3.kind ∈ (["comp_iter", "list_iter", "set_iter"] : List String) then
          cwnLoop fuel { ls with n := n3, store := store2, comp_store := comp_store2, coll := some n }
        else none
      else if n.kind = "list_if_chained" then do
        let h0 ← n.childAt 0
        if h0.kind = "list_if_compare" then do
          let nl ← n.childAt (-1)
          if nl.kind = "list_iter" then
            cwnLoop fuel { ls with n := nl, if_nodes := ls.if_nodes ++ [h0] }
          else none
        else none
      else if n.kind ∈ (["comp_if_not_and", "comp_if_or", "comp_if_or2", "comp_if_or_not",
          "comp_if_not_or"] : List String) then do
        let nl ← n.childAt (-1)
        if nl.kind = "comp_iter" then
          cwnLoop fuel { ls with n := nl, if_nodes := ls.if_nodes ++ [n] }
        else none
      else if n.kind ∈ (["list_if", "list_if_not", "list_if37", "list_if37_not", "comp_if",
          "comp_if_not"] : List String) then
        if n.kind ∈ (["list_if37", "list_if37_not", "comp_if"] : List String) then do
          let if_nodes ←
            if n.kind = "comp_if" then do
              let h0 ← n.childAt 0
              pure (ls.if_nodes ++ [h0])
            else pure ls.if_nodes
          let n1 ← n.childAt 1
          cwnLoop fuel { ls with n := n1, if_nodes := if_nodes }
        else do
          let (if_nodes, if_node_parent) ←
            if n.kind = "comp_if_not" then pure (ls.if_nodes ++ [n], ls.if_node_parent)
            else do
              let h0 ← n.childAt 0
              pure (ls.if_nodes ++ [h0], some n)
          let n1 ← n.childAt 1
          let store2 := if n1.kind = "store" then some n1 else ls.store
          let nlast ← n.childAt (-1)
          let n2 ← if nlast.kind = "come_from_opt" then n.childAt (-2) else pure nlast
          cwnLoop fuel
            { ls with
              n := n2
              store := store2
              if_nodes := if_nodes
              if_node_parent := if_node_parent }
      else if n.kind = "list_if_and_or" then do
        let nl ← n.childAt (-1)
        let h0 ← nl.childAt 0
        cwnLoop fuel { ls with n := nl, if_nodes := ls.if_nodes ++ [h0] }
      else
        cwnLoop fuel ls
    else pure ls

/-- The body of `comprehension_walk_newer` up to (but excluding) the
final precedence restore (pysource.py lines 1103-1443): `.inl` is the
prune escape at line 1235 (precedence as left by the nested build),
`.inr` a state still awaiting the restore (both the early return at
lines 1409-1410 and the fall-through end).  `childRender` abstracts
`self.preorder`; `buildAst` abstracts the external parser round trip;
rendering a None collection or comp-for (which would walk the stored
whole tree) is left out as an error; Python truthiness of possibly-None
node variables is None-ness. -/
def cwnBody (cfg : Config) (childRender : Node → WalkState → Option WalkState)
    (buildAst : WalkState → Option (Node × WalkState)) (node : Node)
    (iter_index : Option Int) (code_index : Int) (coll0 : Option Node)
    (st : WalkState) : Option (WalkState ⊕ WalkState) := do
  let n0 ← node.childAt 0
  let (tree, st) ←
    if n0.isLoadCode then do
      let n3 ← node.childAt 3
      if n3.kind = "get_aiter" then do
        let cm := st.compile_mode
        let il := st.is_lambda
        let (tree, st) ← get_comprehension_function buildAst node code_index
          { st with compile_mode := "genexpr", is_lambda := true }
        pure (tree, { st with compile_mode := cm, is_lambda := il })
      else get_comprehension_function buildAst node code_index st
    else
      match node.lenN with
      | none => none
      | some len =>
        if len > 2 then do
          let n2 ← node.childAt 2
          if n2.isLoadCode then get_comprehension_function buildAst node 2 st
          else pure (node, st)
        else pure (node, st)
  let init ← cwnExtract node tree iter_index coll0
  let tree := init.tree
  let s3 ← cwnStep3 tree init.n init.store
  match s3 with
  | none => return Sum.inl st
  | some (nOpt, store0) => do
    let n ← nOpt
    let (comp_for, comp_store) ←
      if n.kind = "comp_iter" then
        if store0.isNone then do
          let cs3 ← tree.childAt 3
          pure (some n, some cs3)
        else pure (some n, (none : Option Node))
      else pure ((none : Option Node), (none : Option Node))
    let ls ← cwnLoop (Node.sizeN n)
      { n := n
        store := store0
        comp_store := comp_store
        if_nodes := []
        if_node_parent := none
        coll := init.coll }
    let store ← ls.store
    let st ←
      if node.kind ∈ (["list_afor", "set_afor"] : List String) then pure st
      else do
        let nb ← ls.n.childAt 0
        childRender nb st
    let (st, in_node_index, coll) ←
      if node.kind ∈ (["dict_comp_async", "genexpr_func_async", "list_afor",
          "list_comp_async", "set_afor2", "set_comp_async"] : List String) then do
        let st := write st [" async".toList]
        let len ← node.lenN
        let idx ←
          if len > 6 then do
            let n5 ← node.childAt 5
            pure (if n5.kind = "expr" then (5 : Int) else 3)
          else pure (3 : Int)
        pure (st, idx, ls.coll)
      else do
        let len ← node.lenN
        if len ≥ 3 then do
          let n3 ← node.childAt 3
          if n3.kind = "expr" then pure (st, (3 : Int), some n3)
          else pure (st, (-3 : Int), ls.coll)
        else pure (st, (-3 : Int), ls.coll)
    let st := write st [" for ".toList]
    let st ←
      match ls.comp_store with
      | some cs => childRender cs st
      | none => childRender store st
    let st := write st [" in ".toList]
    let (st, if_nodes) ←
      if node.kind = "list_afor" then do
        let la2 ← node.childAt 1
        if la2.kind = "list_afor2" then do
          let li ← la2.childAt 2
          if li.kind = "list_iter" then
            match coll with
            | some c => do
              let st ← childRender c st
              pure (st, ([] : List Node))
            | none => none
          else none
        else none
      else if node.kind = "set_comp_async" then
        match coll with
        | some c => do
          let st ← childRender c st
          pure (st, ([] : List Node))
        | none => none
      else if cfg.isLambdaMode st.compile_mode then
        if node.kind = "list_comp_async" then do
          let n1 ← node.childAt 1
          let st ← childRender n1 st
          pure (st, ls.if_nodes)
        else
          match coll with
          | none => do
            let n3 ← node.childAt 3
            if n3.kind = "expr" then do
              let st ← childRender n3 st
              pure (st, ls.if_nodes)
            else none
          | some c => do
            let c0 ← c.childAt 0
            let st ← childRender c0 st
            pure (st, ls.if_nodes)
      else do
        let cN ←
          match coll with
          | some c => pure c
          | none => node.childAt in_node_index
        let st ← childRender cN st
        pure (st, ls.if_nodes)
    let (st, comp_store2, earlyExit) ←
      if tree.kind ∈ (["list_comp", "set_comp"] : List String) then do
        let list_iter ← tree.childAt 1
        if list_iter.kind ∈ (["list_iter", "set_iter"] : List String) then do
          let list_for ← list_iter.childAt 0
          if list_for.kind = "list_for" then do
            let inner ← list_for.childAt 3
            if inner.kind ∈ (["list_iter", "set_iter"] : List String) then do
              let skip ←
                if inner.kind = "set_iter" then do
                  let i0 ← inner.childAt 0
                  pure (decide (i0.kind = "set_comp_body"))
                else pure false
              if !skip then do
                let st ← childRender inner st
                let i0 ← inner.childAt 0
                if optNodeEq ls.if_node_parent i0 then
                  pure (st, (none : Option Node), true)
                else pure (st, (none : Option Node), false)
              else pure (st, (none : Option Node), false)
            else none
          else pure (st, ls.comp_store, false)
        else none
      else pure (st, ls.comp_store, false)
    if earlyExit then return Sum.inr st
    let (st, comp_for2) ←
      if tree.kind = "set_comp_func" then do
        let comp_iter ← tree.childAt 5
        if comp_iter.kind = "comp_iter" then do
          let cf ← comp_iter.childAt 0
          if cf.kind = "comp_for" then do
            let st := write st ["for ".toList]
            let c2 ← cf.childAt 2
            if c2.kind = "store" then do
              let st ← childRender c2 st
              let st := write st [" in ".toList]
              let pp := st.prec
              let c0 ← cf.childAt 0
              if c0.kind = "expr" then do
                let st ← childRender c0 { st with prec := cfg.noParensEver }
                pure ({ st with prec := pp }, some cf)
              else none
            else none
          else pure (st, some cf)
        else none
      else pure (st, comp_for)
    let st ←
      if comp_store2.isSome then
        match comp_for2 with
        | some cf => childRender cf st
        | none => none
      else pure st
    let st ← if_nodes.foldlM
      (fun st if_node => do
        let st := write st [" if ".toList]
        if if_node.kind ∈ (["comp_if_not_and", "comp_if_not_or", "comp_if_or", "comp_if_or2",
            "comp_if_or_not"] : List String) then
          childRender if_node st
        else do
          let st :=
            if if_node.kind ∈ (["list_if_not", "comp_if_not", "list_if37_not"] : List String) then
              write st ["not ".toList]
            else st
          let c0 ← if_node.childAt 0
          childRender c0 { st with prec := 27 })
      st
    return Sum.inr st

/-- `SourceWalker.comprehension_walk_newer` (pysource.py lines
1103-1444): save the precedence on entry, run the body, and restore the
saved precedence on every normal return (both the early return at lines
1409-1410 and the fall-through end at line 1444); the prune escape at
line 1235 leaves the body without restoring. -/
def comprehension_walk_newer (cfg : Config)
    (childRender : Node → WalkState → Option WalkState)
    (buildAst : WalkState → Option (Node × WalkState)) (node : Node)
    (iter_index : Option Int) (code_index : Int) (coll0 : Option Node)
    (st : WalkState) : Option (RExit × WalkState) := do
  let p := st.prec
  let r ← cwnBody cfg childRender buildAst node iter_index code_index coll0 st
  match r with
  | Sum.inl stP => pure (RExit.pruned, stP)
  | Sum.inr stN => pure (RExit.normal, { stN with prec := p })

/-- C7 (amended): the cited handlers do preserve the caller's precedence:
`n_expr` restores the saved value on every completed call (whatever the
child renders do to it), and `comprehension_walk_newer` restores it on
both of its normal return paths — the early return for a handled nested
list iteration and the fall-through end; but not on the prune escape, and
handlers such as `n_return_expr` that install a precedence for a
following render leak it (see the counterexample). -/
theorem c7_theorem :
    (∀ (cfg : Config) (childRender : Node → WalkState → Option WalkState)
        (node : Node) (st st' : WalkState),
        n_expr cfg childRender node st = some st' → st'.prec = st.prec) ∧
    (∀ (cfg : Config) (childRender : Node → WalkState → Option WalkState)
        (buildAst : WalkState → Option (Node × WalkState)) (node : Node)
        (iter_index : Option Int) (code_index : Int) (coll0 : Option Node)
        (st st' : WalkState),
        comprehension_walk_newer cfg childRender buildAst node iter_index code_index
          coll0 st = some (RExit.normal, st') → st'.prec = st.prec) := by
  constructor
  · intro cfg childRender node st st' h
    unfold n_expr at h
    simp only [Option.bind_eq_bind, Option.bind_eq_some, Option.pure_def,
      Option.some.injEq] at h
    obtain ⟨stB, hstB, hfin⟩ := h
    subst hfin
    rfl
  · intro cfg childRender buildAst node iter_index code_index coll0 st st' h
    unfold comprehension_walk_newer at h
    simp only [Option.bind_eq_bind, Option.bind_eq_some] at h
    obtain ⟨r, hr, hfin⟩ := h
    cases r with
    | inl stP =>
      simp only [Option.pure_def, Option.some.injEq, Prod.mk.injEq] at hfin
      cases hfin.1
    | inr stN =>
      simp only [Option.pure_def, Option.some.injEq, Prod.mk.injEq] at hfin
      rw [← hfin.2]

/-- Configuration used for the concrete C7 runs. -/
def c7cfg : Config :=
  { precTable := fun _ => none
    noParensEver := 100
    isLambdaMode := fun _ => false }

/-- A concrete expr node for the C7 witness run of `n_expr`. -/
def c7exprNode : Node :=
  Node.nt "expr" [Node.nt "attribute" []]

/-- A concrete list_afor comprehension node for the C7 witness run of
`comprehension_walk_newer`: collection, then a list_afor2 holding a
store and a list_iter around the body expression. -/
def c7cwnNode : Node :=
  Node.nt "list_afor"
    [Node.nt "expr_coll" [],
     Node.nt "list_afor2"
       [Node.nt "x" [], Node.nt "store" [],
        Node.nt "list_iter" [Node.nt "expr" []]]]

/-- Expected final state of the witness comprehension run: the async,
for and in markers written, precedence restored to 100. -/
def c7cwnOut : WalkState :=
  { write (write (write (initWalkState []) [" async".toList]) [" for ".toList])
      [" in ".toList] with prec := 100 }

/-- C7 witness: the preservation law applied at a concrete `n_expr` call
and at a concrete normally-returning `comprehension_walk_newer` call. -/
theorem c7_witness :
    (n_expr c7cfg (fun _ s => some s) c7exprNode (initWalkState []) =
        some (initWalkState []) ∧
      (initWalkState []).prec = (initWalkState []).prec) ∧
    (comprehension_walk_newer c7cfg (fun _ s => some s)
        (fun s => some (Node.nt "x" [], s)) c7cwnNode (some 1) 0 none
        (initWalkState []) = some (RExit.normal, c7cwnOut) ∧
      c7cwnOut.prec = (initWalkState []).prec) :=
  ⟨⟨rfl, c7_theorem.1 c7cfg (fun _ s => some s) c7exprNode (initWalkState [])
      (initWalkState []) rfl⟩,
   ⟨rfl, c7_theorem.2 c7cfg (fun _ s => some s) (fun s => some (Node.nt "x" [], s))
      c7cwnNode (some 1) 0 none (initWalkState []) c7cwnOut rfl⟩⟩

end Decompyle3
